import Mathlib

/-!
Verification of the live/upcoming classification pipeline of
`src/automation/sync_youtube_free.py`.

Modelling conventions (shallow embedding):
* Timestamps are integers (seconds).  A timestamp *string* field of the
  Python code is modelled by `TS`: `TS.empty` is the empty string (falsy),
  `TS.malformed` is a non-empty string that `parse_iso` fails to parse, and
  `TS.time t` is a non-empty string parsing to the instant `t`.
* `datetime` comparison becomes integer comparison; `timedelta(minutes=30)`
  is `1800`, `timedelta(hours=h)` is `3600*h`, `timedelta(days=d)` is
  `86400*d`.
* Display-formatted timestamps (`strftime("%Y-%m-%d %H:%M")` after timezone
  conversion) are modelled by `fmtTimestamp`, a Gregorian civil-time
  formatter at a fixed UTC offset (the `America/New_York` tz-database
  offset is environment data and is abstracted to offset 0; no claim
  depends on the offset, only on the format being a non-empty string and
  parse failures raising).
* Network fetches are effects: their *results* (CSV rows, TikTok room
  lookups, YouTube API payloads) are inputs of the embedded functions.
  A raised exception is an `Except.error` / `Option.none` value.
-/

/-- Lifecycle status returned by `classify_video` (the Python strings
"live" / "upcoming" / "ended" / "none"). -/
inductive Status where
  | live
  | upcoming
  | ended
  | none_
  deriving DecidableEq, Repr, BEq

/-- A timestamp-string field: empty, non-empty but unparseable, or a
parsed instant. -/
inductive TS where
  | empty
  | malformed
  | time (t : Int)
  deriving DecidableEq, Repr, BEq

/-- Python truthiness of the timestamp string (non-empty). -/
def TS.present : TS → Bool
  | .empty => false
  | _ => true

/-- `parse_iso`: `None` on empty or malformed input, otherwise the instant. -/
def TS.parse : TS → Option Int
  | .time t => some t
  | _ => none

/-- Python `a or b` on timestamp strings: first truthy value. -/
def ts_or (a b : TS) : TS := if a.present then a else b

/-- `parse_iso(ts)` succeeded and the result is strictly after `now`
(the `sched_dt and sched_dt > now` test of `classify_video`). -/
def tsAfter (ts : TS) (now : Int) : Bool :=
  match ts.parse with
  | some t => decide (t > now)
  | none => false

/-- Python `str.lower()` (ASCII case folding, which covers every string
the script lowercases). -/
def str_lower (s : String) : String := String.mk (s.data.map Char.toLower)

/-- Python `str.strip()`: drop leading and trailing whitespace. -/
def str_trim (s : String) : String :=
  String.mk (((s.data.dropWhile Char.isWhitespace).reverse.dropWhile
    Char.isWhitespace).reverse)

/-- Does `p` start the list `l`? -/
def startsWithList : List Char → List Char → Bool
  | [], _ => true
  | _ :: _, [] => false
  | p :: ps, c :: cs => p == c && startsWithList ps cs

/-- Fuel-indexed worker for `str_replace` (fuel = input length). -/
def replaceFuel (pat repl : List Char) : Nat → List Char → List Char
  | _, [] => []
  | 0, l => l
  | Nat.succ fuel, c :: cs =>
    if startsWithList pat (c :: cs) then
      repl ++ replaceFuel pat repl fuel (List.drop (pat.length - 1) cs)
    else c :: replaceFuel pat repl fuel cs

/-- Python `str.replace(pat, repl)` for a non-empty pattern:
non-overlapping left-to-right replacement (the script only replaces
".jpg"). -/
def str_replace (s pat repl : String) : String :=
  if pat.data.isEmpty then s
  else String.mk (replaceFuel pat.data repl.data s.data.length s.data)

instance {ε α : Type} [DecidableEq ε] [DecidableEq α] :
    DecidableEq (Except ε α) := fun a b =>
  match a, b with
  | .ok x, .ok y =>
    if h : x = y then .isTrue (by rw [h]) else .isFalse (by simp [h])
  | .ok _, .error _ => .isFalse (by simp)
  | .error _, .ok _ => .isFalse (by simp)
  | .error x, .error y =>
    if h : x = y then .isTrue (by rw [h]) else .isFalse (by simp [h])

/-- Left-pad the decimal form of `n` with zeros to width `w`
(strftime zero padding). -/
def padNum (w : Nat) (n : Nat) : String :=
  let s := toString n
  if s.length < w then String.mk (List.replicate (w - s.length) '0') ++ s else s

/-- `strftime("%Y-%m-%d %H:%M")` on the instant `t` (seconds), via the
standard Gregorian civil-from-days conversion; display timezone offset
abstracted to 0. -/
def fmtTimestamp (t : Int) : String :=
  let days := t.fdiv 86400
  let secs := (t - days * 86400).toNat
  let z := days + 719468
  let era := z.fdiv 146097
  let doe := (z - era * 146097).toNat
  let yoe := (doe - doe / 1460 + doe / 36524 - doe / 146096) / 365
  let doy := doe - (365 * yoe + yoe / 4 - yoe / 100)
  let mp := (5 * doy + 2) / 153
  let d := doy - (153 * mp + 2) / 5 + 1
  let m := if mp < 10 then mp + 3 else mp - 9
  let y := (yoe : Int) + era * 400 + (if m ≤ 2 then 1 else 0)
  padNum 4 y.toNat ++ "-" ++ padNum 2 m ++ "-" ++ padNum 2 d ++ " " ++
    padNum 2 (secs / 3600) ++ ":" ++ padNum 2 (secs % 3600 / 60)

/-- `iso_to_et_fmt`: parse the ISO timestamp string and format it for
display; a parse failure raises (`none`). -/
def iso_to_et_fmt (ts : TS) : Option String := ts.parse.map fmtTimestamp

/-- `now_et_fmt()`: the formatted current time. -/
def now_et_fmt (now : Int) : String := fmtTimestamp now

/-- The fields of a YouTube `videos.list` item that `classify_video`
reads (snippet, liveStreamingDetails, status, contentDetails), plus the
video id the surrounding loop carries. -/
structure VideoItem where
  id : String
  title : String
  /-- thumbnail URLs in the probe order maxres, standard, high, medium,
  default ("" when the size is absent) -/
  thumbs : List String
  liveBroadcastContent : String
  actualStartTime : TS
  actualEndTime : TS
  scheduledStartTime : TS
  scheduledEndTime : TS
  uploadStatus : String
  privacyStatus : String
  hasDuration : Bool
  /-- truthiness of `snippet.premiere or snippet.isPremiere` -/
  premiereFlag : Bool
  deriving DecidableEq, Repr

/-- First non-empty (after strip) thumbnail URL, else "". -/
def pick_thumb (l : List String) : String :=
  ((l.map str_trim).find? (fun s => s != "")).getD ""

/-- The tuple `classify_video` returns:
`(status, start_iso, end_iso, is_live_broadcast, is_premiere, title, thumb_url)`. -/
structure ClassifyOut where
  status : Status
  start : TS
  stop : TS
  is_live_broadcast : Bool
  is_premiere : Bool
  title : String
  thumb : String
  deriving DecidableEq, Repr

/-- `classify_video(item, now)` (lines 574-627 of the source). -/
def classify_video (item : VideoItem) (now : Int) : ClassifyOut :=
  let title := str_trim item.title
  let thumb := pick_thumb item.thumbs
  let lbc := str_lower item.liveBroadcastContent
  let is_live_broadcast := lbc == "live"
  let is_upcoming_broadcast := lbc == "upcoming"
  let is_premiere :=
    str_lower item.uploadStatus == "uploaded" &&
    (str_lower item.privacyStatus == "public" || str_lower item.privacyStatus == "unlisted") &&
    item.hasDuration && item.premiereFlag
  if item.actualStartTime.present && !item.actualEndTime.present then
    ⟨.live, item.actualStartTime, .empty, true, is_premiere, title, thumb⟩
  else if tsAfter item.scheduledStartTime now then
    ⟨.upcoming, item.scheduledStartTime, item.scheduledEndTime, false, is_premiere, title, thumb⟩
  else if item.actualEndTime.present then
    ⟨.ended, ts_or item.actualStartTime item.scheduledStartTime, item.actualEndTime,
      false, is_premiere, title, thumb⟩
  else if is_live_broadcast then
    ⟨.live, ts_or item.actualStartTime item.scheduledStartTime, item.actualEndTime,
      true, is_premiere, title, thumb⟩
  else if is_upcoming_broadcast then
    ⟨.upcoming, item.scheduledStartTime, item.scheduledEndTime, false, is_premiere, title, thumb⟩
  else
    ⟨.none_, ts_or item.scheduledStartTime item.actualStartTime, item.actualEndTime,
      false, is_premiere, title, thumb⟩

/-- `within_upcoming_horizon(iso, now, horizon_days)`. -/
def within_upcoming_horizon (ts : TS) (now : Int) (horizon_days : Int) : Bool :=
  match ts.parse with
  | none => false
  | some t => decide (t ≤ now + 86400 * horizon_days)

/-- `within_recent_window(iso, now, hours)`. -/
def within_recent_window (ts : TS) (now : Int) (hours : Int) : Bool :=
  match ts.parse with
  | none => false
  | some t => decide (t ≥ now - 3600 * hours)

/-- `is_stale_live(start_iso, now, max_hours)`. -/
def is_stale_live (ts : TS) (now : Int) (max_hours : Int) : Bool :=
  match ts.parse with
  | none => false
  | some t => decide (t < now - 3600 * max_hours)

/-- `is_stale_upcoming(sched_iso, now)`: scheduled start more than
30 minutes in the past. -/
def is_stale_upcoming (ts : TS) (now : Int) : Bool :=
  match ts.parse with
  | none => false
  | some t => decide (t < now - 1800)

/-- An output event record (the dicts appended to `events` and serialized
to JSON).  `source_id` is "" when the key is absent (schedule-sheet rows). -/
structure Event where
  start_et : String
  end_et : String
  title : String
  league : String
  platform : String
  channel : String
  watch_url : String
  source_id : String
  event_type : String
  is_premiere : Bool
  status : String
  thumbnail_url : String
  subscribers : Int
  deriving DecidableEq, Repr

/-- The numeric tuning knobs the classification loop reads
(`UPCOMING_HORIZON_DAYS`, `RECENT_ENDED_HOURS`, `MAX_LIVE_HOURS`). -/
structure Config where
  horizonDays : Int
  recentHours : Int
  maxLiveHours : Int
  deriving DecidableEq, Repr

/-- The default values of the tuning knobs. -/
def cfgDefault : Config := { horizonDays := 7, recentHours := 36, maxLiveHours := 4 }

/-- A candidate retained by the scan loop:
`(vid, start_iso, end_iso, title, thumb_url)`. -/
structure Pick where
  vid : String
  start : TS
  stop : TS
  title : String
  thumb : String
  deriving DecidableEq, Repr

/-- The per-channel selection state (`best_live`, `best_upcoming`,
`recent_ended`). -/
structure Best where
  live? : Option Pick
  upcoming? : Option Pick
  ended : List Pick
  deriving DecidableEq, Repr

/-- The `status == "upcoming"` block of the loop (lines 819-825): keep the
first upcoming candidate that has a start, is within the horizon and is
not stale. -/
def upd_upcoming (now : Int) (cfg : Config) (item : VideoItem) (c : ClassifyOut)
    (st : Best) : Best :=
  if c.status = Status.upcoming ∧ c.start.present then
    if !within_upcoming_horizon c.start now cfg.horizonDays then st
    else if is_stale_upcoming c.start now then st
    else if st.upcoming?.isNone then
      { st with upcoming? := some ⟨item.id, c.start, c.stop, c.title, c.thumb⟩ }
    else st
  else st

/-- The `status == "ended"` block of the loop (lines 827-829): collect
candidates whose end lies within the recent window. -/
def upd_ended (now : Int) (cfg : Config) (item : VideoItem) (c : ClassifyOut)
    (st : Best) : Best :=
  if c.status = Status.ended ∧ c.stop.present ∧
      within_recent_window c.stop now cfg.recentHours then
    { st with ended := st.ended ++ [⟨item.id, c.start, c.stop, c.title, c.thumb⟩] }
  else st

/-- The candidate-selection loop of `main` (lines 801-829): walk the
channel's candidates in order, skip premieres and stale-live candidates,
fold the upcoming/ended blocks into the state, and stop at the first
non-stale live hit. -/
def scan_items (now : Int) (cfg : Config) : List VideoItem → Best → Best
  | [], st => st
  | item :: rest, st =>
    let c := classify_video item now
    if c.is_premiere then
      scan_items now cfg rest st
    else if c.status = Status.live then
      if c.start.present && is_stale_live c.start now cfg.maxLiveHours then
        scan_items now cfg rest st
      else
        { st with live? := some ⟨item.id, c.start, c.stop, c.title, c.thumb⟩ }
    else
      scan_items now cfg rest (upd_ended now cfg item c (upd_upcoming now cfg item c st))

/-- `https://www.youtube.com/watch?v=` URL for a video id. -/
def yt_watch_url (vid : String) : String := "https://www.youtube.com/watch?v=" ++ vid

/-- The live event dict built at lines 832-849.  Fails (raises) when the
start timestamp string is present but unparseable. -/
def mk_live_event (channel_title : String) (subs : Int) (now : Int) (p : Pick) :
    Option Event :=
  (iso_to_et_fmt (ts_or p.start (TS.time now))).map (fun s =>
    { start_et := s, end_et := "", title := p.title, league := "",
      platform := "YouTube", channel := channel_title,
      watch_url := yt_watch_url p.vid, source_id := p.vid, event_type := "",
      is_premiere := false, status := "live",
      thumbnail_url := if p.thumb != "" then str_replace p.thumb ".jpg" "_live.jpg" else "",
      subscribers := subs })

/-- The upcoming event dict built at lines 853-869. -/
def mk_upcoming_event (channel_title : String) (subs : Int) (p : Pick) :
    Option Event :=
  match iso_to_et_fmt p.start with
  | none => none
  | some s =>
    match (if p.stop.present then iso_to_et_fmt p.stop else some "") with
    | none => none
    | some e =>
      some { start_et := s, end_et := e, title := p.title, league := "",
             platform := "YouTube", channel := channel_title,
             watch_url := yt_watch_url p.vid, source_id := p.vid,
             event_type := "", is_premiere := false, status := "upcoming",
             thumbnail_url := p.thumb, subscribers := subs }

/-- One ended event dict of the loop at lines 872-887. -/
def mk_ended_event (channel_title : String) (subs : Int) (p : Pick) :
    Option Event :=
  match iso_to_et_fmt (ts_or p.start p.stop) with
  | none => none
  | some s =>
    match (if p.stop.present then iso_to_et_fmt p.stop else some "") with
    | none => none
    | some e =>
      some { start_et := s, end_et := e, title := p.title, league := "",
             platform := "YouTube", channel := channel_title,
             watch_url := yt_watch_url p.vid, source_id := p.vid,
             event_type := "", is_premiere := false, status := "ended",
             thumbnail_url := p.thumb, subscribers := subs }

/-- Emit all recent-ended events of a channel, failing if any timestamp
formatting raises. -/
def emit_ended (channel_title : String) (subs : Int) : List Pick → Option (List Event)
  | [] => some []
  | p :: ps =>
    match mk_ended_event channel_title subs p with
    | none => none
    | some e => (emit_ended channel_title subs ps).map (e :: ·)

/-- The per-channel data the classification stage consumes: resolved
display title, subscriber count, and the candidate video items (the
`details` payloads of the channel's deduplicated candidate ids, in scan
order). -/
structure ChannelScan where
  channel_title : String
  subscribers : Int
  items : List VideoItem
  deriving DecidableEq, Repr

/-- The events one YouTube channel contributes (scan + emission,
lines 796-887): exactly one live event when a live hit was found
(upcoming/ended suppressed by the `continue`), otherwise at most one
upcoming event followed by the recent-ended events.  `none` models an
exception escaping the loop (a present but unparseable timestamp hitting
`iso_to_et_fmt`). -/
def channel_events (now : Int) (cfg : Config) (scan : ChannelScan) :
    Option (List Event) :=
  let st := scan_items now cfg scan.items ⟨none, none, []⟩
  match st.live? with
  | some p => (mk_live_event scan.channel_title scan.subscribers now p).map ([·])
  | none =>
    let up : Option (List Event) :=
      match st.upcoming? with
      | none => some []
      | some p => (mk_upcoming_event scan.channel_title scan.subscribers p).map ([·])
    match up, emit_ended scan.channel_title scan.subscribers st.ended with
    | some u, some l => some (u ++ l)
    | _, _ => none

/-- Was this candidate a "live hit" for the scan loop: not a premiere,
classified live, and not filtered by the stale-live guard? -/
def live_hit (now : Int) (cfg : Config) (item : VideoItem) : Bool :=
  let c := classify_video item now
  !c.is_premiere && decide (c.status = Status.live) &&
    !(c.start.present && is_stale_live c.start now cfg.maxLiveHours)

/-- The dedup key of line 894: `(platform, source_id or watch_url)`. -/
def event_key (e : Event) : String × String :=
  (e.platform, if e.source_id != "" then e.source_id else e.watch_url)

/-- The merge priority of line 891: `{"live": 3, "upcoming": 2, "ended": 1}`
with `.get(..., 0)` after lowercasing. -/
def status_priority (s : String) : Nat :=
  let t := str_lower s
  if t = "live" then 3 else if t = "upcoming" then 2 else if t = "ended" then 1 else 0

/-- One step of the dedup fold of lines 892-902: the dict `merged` is the
association list of its values in insertion order; an update replaces the
entry in place (`new_p >= prev_p` keeps the newer event on ties). -/
def merge_step (m : List Event) (e : Event) : List Event :=
  match m.find? (fun x => decide (event_key x = event_key e)) with
  | none => m ++ [e]
  | some prev =>
    if status_priority e.status ≥ status_priority prev.status then
      m.map (fun x => if event_key x = event_key e then e else x)
    else m

/-- `merged` / `final_events` of lines 892-904: fold the event list into
the keyed dict and take its values. -/
def merge_events (evs : List Event) : List Event := evs.foldl merge_step []

/-- Structural lexicographic `<` on char lists (Python string comparison
by code points). -/
def strLt : List Char → List Char → Bool
  | [], [] => false
  | [], _ :: _ => true
  | _ :: _, [] => false
  | a :: as, b :: bs => if a < b then true else if b < a then false else strLt as bs

/-- `sort_key` of lines 907-914: rank 0 for live, 1 for upcoming, 2
otherwise, paired with the `start_et` string. -/
def sort_key (e : Event) : Nat × List Char :=
  let st := str_lower e.status
  let start := e.start_et.data
  if st = "live" then (0, start) else if st = "upcoming" then (1, start) else (2, start)

/-- Strict lexicographic comparison of sort keys (Python tuple `<`). -/
def key_lt (a b : Event) : Bool :=
  let ka := sort_key a
  let kb := sort_key b
  if ka.1 < kb.1 then true
  else if kb.1 < ka.1 then false
  else strLt ka.2 kb.2

/-- Stable ordered insertion: place `e` before the first element not
strictly below it. -/
def insert_ev (e : Event) : List Event → List Event
  | [] => [e]
  | x :: xs => if key_lt x e then x :: insert_ev e xs else e :: x :: xs

/-- `final_events.sort(key=sort_key)` (line 916): a stable ascending sort
by `sort_key`. -/
def sort_events (l : List Event) : List Event := l.foldr insert_ev []

/-- The logical fields `load_schedule_from_sheet` extracts from one CSV
row (lines 99-110; the alias/BOM/case-insensitive header resolution of
`get_val` is string plumbing over the raw row and is performed before
this record). -/
structure SheetRow where
  start_et : String
  end_et : String
  title : String
  league : String
  platform : String
  channel : String
  watch_url : String
  status : String
  event_type : String
  is_premiere : String
  thumbnail_url : String
  subscribers : String
  deriving DecidableEq, Repr

/-- Permissive subscriber-count parse of lines 122-124
(`int(float(x.replace(",", "")))` with empty / unparseable → 0; the
float-notation detour is abstracted to a decimal parse). -/
def parse_subs (s : String) : Int :=
  if s = "" then 0 else ((s.replace "," "").toInt?).getD 0

/-- The per-row body of `load_schedule_from_sheet` (lines 112-140): skip
rows without a watch URL; a missing start time is backfilled with the
formatted current time for live rows and skips the row otherwise; empty
status defaults to "upcoming". -/
def sheetRowToEvent (now : Int) (r : SheetRow) : Option Event :=
  if r.watch_url = "" then none
  else
    let status_normalized := str_lower (str_trim r.status)
    let start_et :=
      if r.start_et != "" then r.start_et
      else if status_normalized = "live" then now_et_fmt now
      else ""
    if start_et = "" then none
    else
      let prem := str_lower r.is_premiere
      some { start_et := start_et, end_et := r.end_et, title := r.title,
             league := r.league, platform := r.platform, channel := r.channel,
             watch_url := r.watch_url, source_id := "",
             event_type := r.event_type,
             is_premiere := (prem = "true" ∨ prem = "yes" ∨ prem = "1"),
             status := if status_normalized = "" then "upcoming" else status_normalized,
             thumbnail_url := r.thumbnail_url, subscribers := parse_subs r.subscribers }

/-- `load_schedule_from_sheet` over the fetched rows. -/
def load_schedule_from_sheet (now : Int) (rows : List SheetRow) : List Event :=
  rows.filterMap (sheetRowToEvent now)

/-- One TikTok channel as the scan loop of lines 691-726 sees it: the
sheet fields together with the network-derived values (normalized handle,
resolved live URL, and the `fetch_tiktok_live_status` result), which are
effects and therefore inputs of the model. -/
structure TikTokScan where
  display_name : String
  handle : String
  subs : Int
  live_url : String
  is_live : Bool
  room_id : String
  cover : String
  deriving DecidableEq, Repr

/-- The body of the TikTok loop (lines 691-726): rows without a resolved
live URL are skipped, offline rooms are skipped, live rooms yield a live
event whose start is the formatted current time. -/
def tiktok_event (now : Int) (c : TikTokScan) : Option Event :=
  if c.live_url = "" then none
  else if !c.is_live then none
  else
    let fallback := if c.handle != "" then "@" ++ c.handle else "TikTok creator"
    let channel_name := if c.display_name != "" then c.display_name else fallback
    some { start_et := now_et_fmt now, end_et := "",
           title := channel_name ++ " is live on TikTok", league := "",
           platform := "TikTok", channel := channel_name,
           watch_url := c.live_url, source_id := c.room_id, event_type := "",
           is_premiere := false, status := "live", thumbnail_url := c.cover,
           subscribers := c.subs }

/-- An exception escaping to `main`'s handler: an `urllib.error.HTTPError`
with its status code, or another (value) error such as a timestamp-format
failure. -/
inductive RunErr where
  | http (code : Nat)
  | value
  deriving DecidableEq, Repr

/-- `fetch_search_live_for_channel` (lines 537-558): disabled when
`max_results <= 0`; an `HTTPError` from the Search API call is caught,
logged and turned into zero results; other errors propagate; returned
video ids are stripped and empty ids dropped. -/
def fetch_search_live_for_channel (max_results : Int)
    (resp : Except RunErr (List String)) : Except RunErr (List String) :=
  if max_results ≤ 0 then .ok []
  else
    match resp with
    | .error (.http _) => .ok []
    | .error e => .error e
    | .ok ids => .ok ((ids.map str_trim).filter (fun v => v != ""))

/-- The per-YouTube-channel classification loop of lines 785-887: emit
each channel's events in channel order; `none` models an exception
escaping the loop. -/
def emit_channels (now : Int) (cfg : Config) : List ChannelScan → Option (List Event)
  | [] => some []
  | sc :: rest =>
    match channel_events now cfg sc with
    | none => none
    | some evs => (emit_channels now cfg rest).map (evs ++ ·)

/-- The YouTube branch of `main` (lines 729-887): skipped when the
schedule sheet was used, when the API key is missing, or when there are
no YouTube channels; otherwise the credentialed fetch result is consumed
(its exception, or one raised during classification, propagates). -/
def yt_part (now : Int) (cfg : Config)
    (used_schedule_sheet apiKey hasYtChans : Bool)
    (ytFetch : Except RunErr (List ChannelScan)) : Except RunErr (List Event) :=
  if used_schedule_sheet then .ok []
  else if !apiKey then .ok []
  else if !hasYtChans then .ok []
  else
    match ytFetch with
    | .error e => .error e
    | .ok scans =>
      match emit_channels now cfg scans with
      | none => .error .value
      | some l => .ok l

/-- `main` (lines 654-926), from the fetched inputs to the written output.

Inputs: `sched` is the schedule-sheet rows (`none` when
`SCHEDULE_SHEET_CSV` is unset, the fetch raised, or for uniformity an
empty sheet — all leave `schedule_events` empty); `tikChans` the TikTok
rows of the channel sheet with their network lookups; `hasYtChans` /
`hasOtherChans` whether the channel sheet had YouTube / other-platform
rows; `apiKey` whether `YT_API_KEY` is set; `ytFetch` the result of the
credentialed YouTube collection (one `ChannelScan` per YouTube channel
whose metadata was found, or the exception an API call raised).

Output: `.ok none` models returning without writing (no channels and no
schedule events); `.ok (some evs)` models writing `evs`; `.error e`
models the exception `main` logs and re-raises. -/
def run (now : Int) (cfg : Config) (sched : Option (List SheetRow))
    (tikChans : List TikTokScan) (hasYtChans : Bool) (hasOtherChans : Bool)
    (apiKey : Bool) (ytFetch : Except RunErr (List ChannelScan)) :
    Except RunErr (Option (List Event)) :=
  let schedule_events := load_schedule_from_sheet now (sched.getD [])
  let used_schedule_sheet := !schedule_events.isEmpty
  let hasChannels := !tikChans.isEmpty || hasYtChans || hasOtherChans
  if !hasChannels && schedule_events.isEmpty then .ok none
  else
    let tikEvents := tikChans.filterMap (tiktok_event now)
    match yt_part now cfg used_schedule_sheet apiKey hasYtChans ytFetch with
    | .error e => .error e
    | .ok ytEvents =>
      .ok (some (sort_events (merge_events (schedule_events ++ tikEvents ++ ytEvents))))

example : (classify_video
    { id := "v1", title := "t", thumbs := [], liveBroadcastContent := "",
      actualStartTime := .time 100, actualEndTime := .empty,
      scheduledStartTime := .empty, scheduledEndTime := .empty,
      uploadStatus := "", privacyStatus := "", hasDuration := false,
      premiereFlag := false } 0).status = Status.live := by decide

/-! ## Shared concrete material and projection helpers -/

/-- Project an emission result to the emitted statuses. -/
def statuses (o : Option (List Event)) : Option (List String) :=
  o.map (List.map Event.status)

/-- Project a run result to the emitted platforms. -/
def platforms (r : Except RunErr (Option (List Event))) :
    Except RunErr (Option (List String)) :=
  r.map (Option.map (List.map Event.platform))

/-- A candidate with every signal absent. -/
def itemBase : VideoItem :=
  { id := "v1", title := "t", thumbs := [], liveBroadcastContent := "",
    actualStartTime := .empty, actualEndTime := .empty,
    scheduledStartTime := .empty, scheduledEndTime := .empty,
    uploadStatus := "", privacyStatus := "", hasDuration := false,
    premiereFlag := false }

/-! ## C1 -/

/-- C1 counterexample: at `now = 0`, a candidate whose only signal is
`scheduled_start = now - 10 minutes` (no actual-start, no actual-end, no
coarse broadcast label) classifies as `none` and is not emitted, although
the claim says it is classified `upcoming` and emitted. -/
theorem C1_counterexample :
    (classify_video { itemBase with scheduledStartTime := .time (-600) } 0).status
        = Status.none_ ∧
      channel_events 0 cfgDefault
        ⟨"ch", 5, [{ itemBase with scheduledStartTime := .time (-600) }]⟩ = some [] := by
  constructor
  · decide
  · decide

/-- The C1 scenario candidate: scheduled start 10 minutes in the past,
coarse label `upcoming`, everything else absent. -/
def itemC1 : VideoItem :=
  { itemBase with scheduledStartTime := .time (-600), liveBroadcastContent := "upcoming" }

/-- C1 amended: a candidate whose scheduled start is in the past by less
than the 30-minute grace period, with no actual timestamps and no
scheduled end, is classified `upcoming` and emitted as an upcoming event
provided it carries the coarse label `upcoming` and is not a premiere. -/
theorem C1_amended (item : VideoItem) (now t : Int) (ct : String) (subs : Int)
    (hsched : item.scheduledStartTime = TS.time t)
    (hlo : now - 1800 ≤ t) (hhi : t ≤ now)
    (hAS : item.actualStartTime = TS.empty)
    (hAE : item.actualEndTime = TS.empty)
    (hSE : item.scheduledEndTime = TS.empty)
    (hlbc : item.liveBroadcastContent = "upcoming")
    (hprem : item.premiereFlag = false) :
    (classify_video item now).status = Status.upcoming ∧
      channel_events now cfgDefault ⟨ct, subs, [item]⟩ =
        some [{ start_et := fmtTimestamp t, end_et := "",
                title := str_trim item.title, league := "",
                platform := "YouTube", channel := ct,
                watch_url := yt_watch_url item.id, source_id := item.id,
                event_type := "", is_premiere := false, status := "upcoming",
                thumbnail_url := pick_thumb item.thumbs,
                subscribers := subs }] := by
  have hng : ¬ (t > now) := by omega
  have hlow1 : (str_lower "upcoming" = "live") = False := by simp; decide
  have hlow2 : str_lower "upcoming" = "upcoming" := by decide
  have hcl : classify_video item now =
      ⟨.upcoming, TS.time t, TS.empty, false, false, str_trim item.title,
        pick_thumb item.thumbs⟩ := by
    unfold classify_video
    rw [hsched, hAS, hAE, hSE, hlbc, hprem]
    simp [tsAfter, TS.parse, TS.present, hng, hlow1, hlow2]
  have hhor : within_upcoming_horizon (TS.time t) now cfgDefault.horizonDays = true := by
    simp [within_upcoming_horizon, TS.parse, cfgDefault]
    omega
  have hst : is_stale_upcoming (TS.time t) now = false := by
    simp [is_stale_upcoming, TS.parse]
    omega
  refine ⟨by rw [hcl], ?_⟩
  unfold channel_events scan_items
  rw [hcl]
  simp [scan_items, upd_upcoming, upd_ended, hhor, hst, TS.present,
    mk_upcoming_event, iso_to_et_fmt, TS.parse, emit_ended]

/-- C1 witness for the amended theorem at a concrete input. -/
theorem C1_witness :
    (classify_video itemC1 0).status = Status.upcoming ∧
      channel_events 0 cfgDefault ⟨"ch", 5, [itemC1]⟩ =
        some [{ start_et := fmtTimestamp (-600), end_et := "",
                title := str_trim itemC1.title, league := "",
                platform := "YouTube", channel := "ch",
                watch_url := yt_watch_url itemC1.id, source_id := itemC1.id,
                event_type := "", is_premiere := false, status := "upcoming",
                thumbnail_url := pick_thumb itemC1.thumbs,
                subscribers := 5 }] :=
  C1_amended itemC1 0 (-600) "ch" 5 rfl (by decide) (by decide) rfl rfl rfl rfl rfl

/-! ## Emission lemmas -/

theorem mk_live_event_status (ct : String) (subs : Int) (now : Int) (p : Pick)
    (e : Event) (h : mk_live_event ct subs now p = some e) : e.status = "live" := by
  unfold mk_live_event at h
  cases hf : iso_to_et_fmt (ts_or p.start (TS.time now)) with
  | none => rw [hf] at h; simp at h
  | some s => rw [hf] at h; simp at h; rw [← h]

theorem mk_upcoming_event_status (ct : String) (subs : Int) (p : Pick)
    (e : Event) (h : mk_upcoming_event ct subs p = some e) : e.status = "upcoming" := by
  unfold mk_upcoming_event at h
  cases hf : iso_to_et_fmt p.start with
  | none => rw [hf] at h; simp at h
  | some s =>
    rw [hf] at h
    cases hg : (if p.stop.present then iso_to_et_fmt p.stop else some "") with
    | none => rw [hg] at h; simp at h
    | some t => rw [hg] at h; simp at h; rw [← h]

theorem mk_ended_event_status (ct : String) (subs : Int) (p : Pick)
    (e : Event) (h : mk_ended_event ct subs p = some e) : e.status = "ended" := by
  unfold mk_ended_event at h
  cases hf : iso_to_et_fmt (ts_or p.start p.stop) with
  | none => rw [hf] at h; simp at h
  | some s =>
    rw [hf] at h
    cases hg : (if p.stop.present then iso_to_et_fmt p.stop else some "") with
    | none => rw [hg] at h; simp at h
    | some t => rw [hg] at h; simp at h; rw [← h]

theorem emit_ended_status (ct : String) (subs : Int) :
    ∀ (ps : List Pick) (l : List Event), emit_ended ct subs ps = some l →
      ∀ e ∈ l, e.status = "ended" := by
  intro ps
  induction ps with
  | nil => intro l h e he; simp [emit_ended] at h; subst h; simp at he
  | cons p ps ih =>
    intro l h e he
    unfold emit_ended at h
    cases hm : mk_ended_event ct subs p with
    | none => rw [hm] at h; simp at h
    | some e0 =>
      rw [hm] at h
      cases hr : emit_ended ct subs ps with
      | none => rw [hr] at h; simp at h
      | some l0 =>
        rw [hr] at h
        simp at h
        subst h
        rcases List.mem_cons.mp he with h1 | h2
        · subst h1; exact mk_ended_event_status ct subs p e hm
        · exact ih l0 hr e h2

/-- Shape of a channel's emitted events: one live event when the scan
found a live hit, otherwise an optional upcoming event followed by ended
events. -/
theorem channel_events_cases (now : Int) (cfg : Config) (sc : ChannelScan)
    (evs : List Event) (h : channel_events now cfg sc = some evs) :
    (∃ p e, (scan_items now cfg sc.items ⟨none, none, []⟩).live? = some p ∧
        evs = [e] ∧ e.status = "live") ∨
    ((scan_items now cfg sc.items ⟨none, none, []⟩).live? = none ∧
      ∃ u l, evs = u ++ l ∧ (∀ e ∈ l, e.status = "ended") ∧
        (u = [] ∨ ∃ e p, u = [e] ∧ e.status = "upcoming" ∧
          (scan_items now cfg sc.items ⟨none, none, []⟩).upcoming? = some p)) := by
  simp only [channel_events] at h
  cases hl : (scan_items now cfg sc.items ⟨none, none, []⟩).live? with
  | some p =>
    rw [hl] at h
    simp only [] at h
    cases hm : mk_live_event sc.channel_title sc.subscribers now p with
    | none => rw [hm] at h; simp at h
    | some e0 =>
      rw [hm] at h
      simp at h
      exact Or.inl ⟨p, e0, rfl, h.symm, mk_live_event_status _ _ _ _ _ hm⟩
  | none =>
    rw [hl] at h
    refine Or.inr ⟨rfl, ?_⟩
    cases hu : (scan_items now cfg sc.items ⟨none, none, []⟩).upcoming? with
    | none =>
      rw [hu] at h
      cases hr : emit_ended sc.channel_title sc.subscribers
          (scan_items now cfg sc.items ⟨none, none, []⟩).ended with
      | none => rw [hr] at h; simp at h
      | some l0 =>
        rw [hr] at h
        simp at h
        exact ⟨[], l0, by simp [h.symm], emit_ended_status _ _ _ _ hr, Or.inl rfl⟩
    | some p =>
      rw [hu] at h
      simp only [] at h
      cases hm : mk_upcoming_event sc.channel_title sc.subscribers p with
      | none => rw [hm] at h; simp at h
      | some e0 =>
        rw [hm] at h
        cases hr : emit_ended sc.channel_title sc.subscribers
            (scan_items now cfg sc.items ⟨none, none, []⟩).ended with
        | none => rw [hr] at h; simp at h
        | some l0 =>
          rw [hr] at h
          simp at h
          exact ⟨[e0], l0, by simp [h.symm], emit_ended_status _ _ _ _ hr,
            Or.inr ⟨e0, p, rfl, mk_upcoming_event_status _ _ _ _ hm, rfl⟩⟩

/-! ## Scan lemmas -/

theorem upd_upcoming_live? (now : Int) (cfg : Config) (item : VideoItem)
    (c : ClassifyOut) (st : Best) :
    (upd_upcoming now cfg item c st).live? = st.live? := by
  unfold upd_upcoming
  split
  · split
    · rfl
    · split
      · rfl
      · split <;> rfl
  · rfl

theorem upd_ended_live? (now : Int) (cfg : Config) (item : VideoItem)
    (c : ClassifyOut) (st : Best) :
    (upd_ended now cfg item c st).live? = st.live? := by
  unfold upd_ended
  split <;> rfl

theorem upd_ended_upcoming? (now : Int) (cfg : Config) (item : VideoItem)
    (c : ClassifyOut) (st : Best) :
    (upd_ended now cfg item c st).upcoming? = st.upcoming? := by
  unfold upd_ended
  split <;> rfl

/-- If a channel's candidate list contains a non-premiere, non-stale live
candidate, the scan ends with `best_live` set. -/
theorem scan_live_some (now : Int) (cfg : Config) :
    ∀ (items : List VideoItem) (st : Best),
      (∃ i ∈ items, live_hit now cfg i = true) →
      ((scan_items now cfg items st).live?).isSome = true := by
  intro items
  induction items with
  | nil => intro st h; simp at h
  | cons i rest ih =>
    intro st h
    rw [scan_items]
    by_cases hp : (classify_video i now).is_premiere = true
    · have hnotlive : live_hit now cfg i = false := by
        simp [live_hit, hp]
      rcases h with ⟨j, hj, hlive⟩
      rcases List.mem_cons.mp hj with rfl | hmem
      · rw [hlive] at hnotlive; cases hnotlive
      · simp only [hp, if_true]
        exact ih st ⟨j, hmem, hlive⟩
    · simp only [hp, if_false]
      by_cases hs : (classify_video i now).status = Status.live
      · by_cases hstale :
            ((classify_video i now).start.present &&
              is_stale_live (classify_video i now).start now cfg.maxLiveHours) = true
        · have hnotlive : live_hit now cfg i = false := by
            simp [live_hit, hp, hstale]
          rcases h with ⟨j, hj, hlive⟩
          rcases List.mem_cons.mp hj with rfl | hmem
          · rw [hlive] at hnotlive; cases hnotlive
          · simp only [hs, if_true, hstale]
            exact ih st ⟨j, hmem, hlive⟩
        · simp only [hs, if_true, hstale, if_false]
          rfl
      · have hnotlive : live_hit now cfg i = false := by
          simp [live_hit, hs]
        rcases h with ⟨j, hj, hlive⟩
        rcases List.mem_cons.mp hj with rfl | hmem
        · rw [hlive] at hnotlive; cases hnotlive
        · simp only [hs, if_false]
          exact ih _ ⟨j, hmem, hlive⟩

/-- Any `best_upcoming` the scan produces (beyond what it started with)
comes from a candidate classified upcoming whose start passed the
stale-upcoming filter. -/
theorem scan_upcoming_not_stale (now : Int) (cfg : Config) :
    ∀ (items : List VideoItem) (st : Best) (p : Pick),
      (scan_items now cfg items st).upcoming? = some p →
      st.upcoming? = some p ∨
        ∃ i ∈ items, (classify_video i now).status = Status.upcoming ∧
          p.start = (classify_video i now).start ∧
          is_stale_upcoming (classify_video i now).start now = false := by
  intro items
  induction items with
  | nil => intro st p h; exact Or.inl h
  | cons i rest ih =>
    intro st p h
    rw [scan_items] at h
    by_cases hp : (classify_video i now).is_premiere = true
    · rw [if_pos hp] at h
      rcases ih st p h with h1 | ⟨j, hj, hrest⟩
      · exact Or.inl h1
      · exact Or.inr ⟨j, List.mem_cons_of_mem _ hj, hrest⟩
    · rw [if_neg hp] at h
      by_cases hs : (classify_video i now).status = Status.live
      · rw [if_pos hs] at h
        by_cases hstale :
            ((classify_video i now).start.present &&
              is_stale_live (classify_video i now).start now cfg.maxLiveHours) = true
        · rw [if_pos hstale] at h
          rcases ih st p h with h1 | ⟨j, hj, hrest⟩
          · exact Or.inl h1
          · exact Or.inr ⟨j, List.mem_cons_of_mem _ hj, hrest⟩
        · rw [if_neg hstale] at h
          exact Or.inl h
      · rw [if_neg hs] at h
        rcases ih _ p h with h1 | ⟨j, hj, hrest⟩
        · rw [upd_ended_upcoming?] at h1
          unfold upd_upcoming at h1
          by_cases hc : ((classify_video i now).status = Status.upcoming ∧
              (classify_video i now).start.present = true)
          · rw [if_pos hc] at h1
            by_cases hh : (!within_upcoming_horizon (classify_video i now).start now
                cfg.horizonDays) = true
            · rw [if_pos hh] at h1; exact Or.inl h1
            · rw [if_neg hh] at h1
              by_cases hst2 : is_stale_upcoming (classify_video i now).start now = true
              · rw [if_pos hst2] at h1; exact Or.inl h1
              · rw [if_neg hst2] at h1
                by_cases hn : st.upcoming?.isNone = true
                · rw [if_pos hn] at h1
                  simp only [Option.some.injEq] at h1
                  refine Or.inr ⟨i, List.mem_cons_self _ _, hc.1, ?_,
                    Bool.eq_false_iff.mpr hst2⟩
                  rw [← h1]
                · rw [if_neg hn] at h1; exact Or.inl h1
          · rw [if_neg hc] at h1; exact Or.inl h1
        · exact Or.inr ⟨j, List.mem_cons_of_mem _ hj, hrest⟩

/-! ## C2 -/

/-- The C2 counterexample candidate: scheduled start one hour in the past
(beyond the 30-minute grace), no actual-start, coarse label `live`. -/
def itemC2 : VideoItem :=
  { itemBase with scheduledStartTime := .time (-3600), liveBroadcastContent := "live" }

/-- The event the pipeline emits for `itemC2`. -/
def evC2 : Event :=
  { start_et := "1969-12-31 23:00", end_et := "", title := "t", league := "",
    platform := "YouTube", channel := "ch",
    watch_url := "https://www.youtube.com/watch?v=v1", source_id := "v1",
    event_type := "", is_premiere := false, status := "live",
    thumbnail_url := "", subscribers := 5 }

/-- C2 counterexample: a candidate with a scheduled start more than the
grace period in the past and no actual-start is *not* necessarily
classified `none`: with the coarse label `live` it classifies `live` and
is emitted as a live event. -/
theorem C2_counterexample :
    (classify_video itemC2 0).status = Status.live ∧
      channel_events 0 cfgDefault ⟨"ch", 5, [itemC2]⟩ = some [evC2] := by
  constructor
  · decide
  · decide

/-- C2 amended: a candidate with a scheduled start more than 30 minutes in
the past and no actual-start is never emitted as an upcoming event (it can
still be classified and emitted as live or ended via the coarse-label and
actual-end fallbacks). -/
theorem C2_amended (item : VideoItem) (now t : Int) (cfg : Config)
    (ct : String) (subs : Int)
    (hsched : item.scheduledStartTime = TS.time t)
    (hpast : t < now - 1800)
    (hAS : item.actualStartTime = TS.empty) :
    ∀ evs, channel_events now cfg ⟨ct, subs, [item]⟩ = some evs →
      ∀ e ∈ evs, e.status ≠ "upcoming" := by
  intro evs h e he hup
  have hta : tsAfter (TS.time t) now = false := by
    simp [tsAfter, TS.parse]
    omega
  have hkey : (classify_video item now).status = Status.upcoming →
      (classify_video item now).start = TS.time t := by
    unfold classify_video
    rw [hAS, hsched, hta]
    simp [TS.present]
    split_ifs <;> simp
  have hstale : is_stale_upcoming (TS.time t) now = true := by
    simp [is_stale_upcoming, TS.parse]
    omega
  rcases channel_events_cases now cfg ⟨ct, subs, [item]⟩ evs h with
    ⟨p, e0, _, heq, hst⟩ | ⟨_, u, l, heq, hend, hu⟩
  · subst heq
    rcases List.mem_singleton.mp he with rfl
    rw [hup] at hst
    exact absurd hst (by decide)
  · subst heq
    rcases List.mem_append.mp he with hmu | hml
    · rcases hu with rfl | ⟨e0, p, rfl, _, hupq⟩
      · simp at hmu
      · rcases List.mem_singleton.mp hmu with rfl
        rcases scan_upcoming_not_stale now cfg [item] ⟨none, none, []⟩ p hupq with
          habs | ⟨j, hj, hjst, hjstart, hjnst⟩
        · simp at habs
        · rcases List.mem_singleton.mp hj with rfl
          rw [hkey hjst, hstale] at hjnst
          cases hjnst
    · rw [hend e hml] at hup
      exact absurd hup (by decide)

/-- C2 witness for the amended theorem at a concrete input (the live-label
candidate is emitted, but not as upcoming). -/
theorem C2_witness : evC2.status ≠ "upcoming" :=
  C2_amended itemC2 0 (-3600) cfgDefault "ch" 5 rfl (by decide) rfl [evC2]
    (by decide) evC2 (by decide)

/-! ## C3 -/

/-- C3: a candidate with an actual-start older than the maximum live
duration and no actual-end is dropped outright: the channel emits nothing
for it (in particular it is never emitted as live). -/
theorem C3_stale_live_dropped (item : VideoItem) (now t : Int) (cfg : Config)
    (ct : String) (subs : Int)
    (hAS : item.actualStartTime = TS.time t)
    (hAE : item.actualEndTime = TS.empty)
    (hold : t < now - 3600 * cfg.maxLiveHours) :
    channel_events now cfg ⟨ct, subs, [item]⟩ = some [] := by
  have hcl : (classify_video item now).status = Status.live ∧
      (classify_video item now).start = TS.time t := by
    unfold classify_video
    rw [hAS, hAE]
    simp [TS.present]
  have hstale : is_stale_live (TS.time t) now cfg.maxLiveHours = true := by
    simp [is_stale_live, TS.parse]
    omega
  unfold channel_events
  rw [scan_items]
  by_cases hp : (classify_video item now).is_premiere = true
  · simp [hp, scan_items, emit_ended]
  · simp [hp, hcl.1, hcl.2, TS.present, hstale, scan_items, emit_ended]

/-- The C3 scenario candidate: actual start well beyond the maximum live
duration, no actual end. -/
def itemC3 : VideoItem := { itemBase with actualStartTime := .time (-20000) }

/-- C3 witness at a concrete input. -/
theorem C3_witness : channel_events 0 cfgDefault ⟨"ch", 5, [itemC3]⟩ = some [] :=
  C3_stale_live_dropped itemC3 0 (-20000) cfgDefault "ch" 5 rfl rfl (by decide)

/-! ## C10 -/

/-- Number of live-status events in a list. -/
def count_live (evs : List Event) : Nat := evs.countP (fun e => e.status == "live")

/-- Number of upcoming-status events in a list. -/
def count_upcoming (evs : List Event) : Nat :=
  evs.countP (fun e => e.status == "upcoming")

/-- C10: per YouTube channel, one run emits at most one live and at most
one upcoming event, and when the candidate list contains a non-stale,
non-premiere live hit, the channel's emission is exactly one live event —
no upcoming and no ended events. -/
theorem C10_channel_shape (now : Int) (cfg : Config) (sc : ChannelScan)
    (evs : List Event) (h : channel_events now cfg sc = some evs) :
    (count_live evs ≤ 1 ∧ count_upcoming evs ≤ 1) ∧
    ((∃ i ∈ sc.items, live_hit now cfg i = true) →
      evs.map Event.status = ["live"]) := by
  rcases channel_events_cases now cfg sc evs h with
    ⟨p, e0, hl, heq, hst⟩ | ⟨hl, u, l, heq, hend, hu⟩
  · subst heq
    refine ⟨⟨?_, ?_⟩, fun _ => by simp [hst]⟩
    · simp only [count_live, List.countP_cons, List.countP_nil]
      split_ifs <;> omega
    · simp only [count_upcoming, List.countP_cons, List.countP_nil]
      split_ifs <;> omega
  · have hlz : l.countP (fun e => e.status == "live") = 0 := by
      refine List.countP_eq_zero.mpr (fun e hme => ?_)
      rw [hend e hme]
      decide
    have huz : l.countP (fun e => e.status == "upcoming") = 0 := by
      refine List.countP_eq_zero.mpr (fun e hme => ?_)
      rw [hend e hme]
      decide
    subst heq
    constructor
    · rcases hu with rfl | ⟨e0, p, rfl, hst, _⟩
      · constructor <;> simp [count_live, count_upcoming, List.countP_append, hlz, huz]
      · constructor <;>
          simp only [count_live, count_upcoming, List.countP_append,
            List.countP_cons, List.countP_nil, hlz, huz] <;>
          rw [hst] <;> simp
    · intro hex
      have := scan_live_some now cfg sc.items ⟨none, none, []⟩ hex
      rw [hl] at this
      simp at this

/-- The C10 witness candidate: a genuine current live broadcast. -/
def itemC10 : VideoItem := { itemBase with actualStartTime := .time (-60) }

/-- The event the pipeline emits for `itemC10`. -/
def evC10 : Event :=
  { start_et := "1969-12-31 23:59", end_et := "", title := "t", league := "",
    platform := "YouTube", channel := "ch",
    watch_url := "https://www.youtube.com/watch?v=v1", source_id := "v1",
    event_type := "", is_premiere := false, status := "live",
    thumbnail_url := "", subscribers := 5 }

/-- C10 witness at a concrete input. -/
theorem C10_witness :
    (count_live [evC10] ≤ 1 ∧ count_upcoming [evC10] ≤ 1) ∧
    [evC10].map Event.status = ["live"] := by
  have h := C10_channel_shape 0 cfgDefault ⟨"ch", 5, [itemC10]⟩ [evC10] (by decide)
  exact ⟨h.1, h.2 ⟨itemC10, by decide, by decide⟩⟩

/-! ## C4 -/

/-- The C4 counterexample candidate: both actual timestamps present (the
end far outside the 36-hour recency window) plus a future scheduled
start. -/
def itemC4 : VideoItem :=
  { itemBase with
      actualStartTime := .time (-200000),
      actualEndTime := .time (-190000),
      scheduledStartTime := .time 600 }

/-- C4 counterexample: a candidate with both actual-start and actual-end
whose end is outside the recency window is *not* dropped when it also has
a future scheduled start: it classifies `upcoming` and is emitted as an
upcoming event. -/
theorem C4_counterexample :
    (classify_video itemC4 0).status = Status.upcoming ∧
      statuses (channel_events 0 cfgDefault ⟨"ch", 5, [itemC4]⟩) =
        some ["upcoming"] := by
  constructor
  · decide
  · decide

/-- C4 amended: a non-premiere candidate with both actual timestamps and
no future scheduled start is emitted as an ended event exactly when its
actual-end lies within the recency window, and is dropped otherwise. -/
theorem C4_amended (item : VideoItem) (now ts te : Int) (cfg : Config)
    (ct : String) (subs : Int)
    (hAS : item.actualStartTime = TS.time ts)
    (hAE : item.actualEndTime = TS.time te)
    (hns : tsAfter item.scheduledStartTime now = false)
    (hprem : item.premiereFlag = false) :
    (now - 3600 * cfg.recentHours ≤ te →
      channel_events now cfg ⟨ct, subs, [item]⟩ =
        some [{ start_et := fmtTimestamp ts, end_et := fmtTimestamp te,
                title := str_trim item.title, league := "",
                platform := "YouTube", channel := ct,
                watch_url := yt_watch_url item.id, source_id := item.id,
                event_type := "", is_premiere := false, status := "ended",
                thumbnail_url := pick_thumb item.thumbs,
                subscribers := subs }]) ∧
    (te < now - 3600 * cfg.recentHours →
      channel_events now cfg ⟨ct, subs, [item]⟩ = some []) := by
  have hcl : classify_video item now =
      ⟨.ended, TS.time ts, TS.time te, false, false, str_trim item.title,
        pick_thumb item.thumbs⟩ := by
    unfold classify_video
    rw [hAS, hAE, hns, hprem]
    simp [TS.present, ts_or]
  constructor
  · intro hin
    have hwin : within_recent_window (TS.time te) now cfg.recentHours = true := by
      simp [within_recent_window, TS.parse]
      omega
    unfold channel_events
    rw [scan_items, hcl]
    simp [scan_items, upd_upcoming, upd_ended, hwin, TS.present, emit_ended,
      mk_ended_event, iso_to_et_fmt, TS.parse, ts_or]
  · intro hout
    have hwin : within_recent_window (TS.time te) now cfg.recentHours = false := by
      simp [within_recent_window, TS.parse]
      omega
    unfold channel_events
    rw [scan_items, hcl]
    simp [scan_items, upd_upcoming, upd_ended, hwin, TS.present, emit_ended]

/-- The C4 witness candidate: ended one hour ago (within the window). -/
def itemC4w : VideoItem :=
  { itemBase with actualStartTime := .time (-7200), actualEndTime := .time (-3600) }

/-- C4 witness at a concrete input (within-window side). -/
theorem C4_witness :
    channel_events 0 cfgDefault ⟨"ch", 5, [itemC4w]⟩ =
      some [{ start_et := fmtTimestamp (-7200), end_et := fmtTimestamp (-3600),
              title := str_trim itemC4w.title, league := "",
              platform := "YouTube", channel := "ch",
              watch_url := yt_watch_url itemC4w.id, source_id := itemC4w.id,
              event_type := "", is_premiere := false, status := "ended",
              thumbnail_url := pick_thumb itemC4w.thumbs,
              subscribers := 5 }] :=
  (C4_amended itemC4w 0 (-7200) (-3600) cfgDefault "ch" 5 rfl rfl rfl rfl).1
    (by decide)

/-! ## Sort order lemmas -/

theorem strLt_asymm : ∀ a b : List Char, strLt a b = true → strLt b a = false := by
  intro a
  induction a with
  | nil =>
    intro b h
    cases b with
    | nil => simp [strLt] at h
    | cons y ys => simp [strLt]
  | cons x xs ih =>
    intro b h
    cases b with
    | nil => simp [strLt] at h
    | cons y ys =>
      by_cases h1 : x < y
      · have h2 : ¬ y < x := lt_asymm h1
        simp [strLt, h1, h2]
      · by_cases h2 : y < x
        · simp [strLt, h1, h2] at h
        · simp [strLt, h1, h2] at h
          simp [strLt, h1, h2, ih ys h]

theorem strLt_le_trans : ∀ c b a : List Char,
    strLt b a = false → strLt c b = false → strLt c a = false := by
  intro c
  induction c with
  | nil =>
    intro b a h1 h2
    cases b with
    | nil =>
      cases a with
      | nil => simp [strLt]
      | cons x xs => simp [strLt] at h1
    | cons y ys => simp [strLt] at h2
  | cons z zs ih =>
    intro b a h1 h2
    cases a with
    | nil => simp [strLt]
    | cons x xs =>
      cases b with
      | nil => simp [strLt] at h1
      | cons y ys =>
        by_cases hyx : y < x
        · simp [strLt, hyx] at h1
        · by_cases hzy : z < y
          · simp [strLt, hzy] at h2
          · have hxy : x ≤ y := le_of_not_lt hyx
            have hyz : y ≤ z := le_of_not_lt hzy
            have hzx : ¬ z < x := not_lt.mpr (hxy.trans hyz)
            by_cases hxz : x < z
            · simp [strLt, hzx, hxz]
            · have hxez : x = z := le_antisymm (hxy.trans hyz) (le_of_not_lt hxz)
              have hyx2 : y ≤ x := le_trans hyz (le_of_eq hxez.symm)
              have hxey : x = y := le_antisymm hxy hyx2
              have nh1 : ¬ x < y := by rw [hxey]; exact lt_irrefl y
              have nh2 : ¬ y < z := by rw [← hxez, ← hxey]; exact lt_irrefl x
              simp [strLt, hyx, nh1] at h1
              simp [strLt, hzy, nh2] at h2
              simp [strLt, hzx, hxz]
              exact ih ys xs h1 h2

theorem key_lt_asymm (a b : Event) (h : key_lt a b = true) : key_lt b a = false := by
  by_cases h1 : (sort_key a).1 < (sort_key b).1
  · have h2 : ¬ (sort_key b).1 < (sort_key a).1 := by omega
    simp [key_lt, h1, h2]
  · by_cases h2 : (sort_key b).1 < (sort_key a).1
    · simp [key_lt, h1, h2] at h
    · simp [key_lt, h1, h2] at h ⊢
      exact strLt_asymm _ _ h

theorem key_lt_le_trans (x y e : Event) (h1 : key_lt x e = false)
    (h2 : key_lt y x = false) : key_lt y e = false := by
  have ha : ¬ (sort_key x).1 < (sort_key e).1 := by
    intro hc
    simp [key_lt, hc] at h1
  have hb : ¬ (sort_key y).1 < (sort_key x).1 := by
    intro hc
    simp [key_lt, hc] at h2
  by_cases hc1 : (sort_key y).1 < (sort_key e).1
  · exact absurd hc1 (by omega)
  · by_cases hc2 : (sort_key e).1 < (sort_key y).1
    · simp [key_lt, hc1, hc2]
    · have hd : ¬ (sort_key e).1 < (sort_key x).1 := by omega
      have he2 : ¬ (sort_key x).1 < (sort_key y).1 := by omega
      simp [key_lt, ha, hd] at h1
      simp [key_lt, hb, he2] at h2
      simp [key_lt, hc1, hc2]
      exact strLt_le_trans _ _ _ h1 h2

/-- Non-strict order between events induced by the sort key. -/
def ev_le (a b : Event) : Prop := key_lt b a = false

theorem insert_ev_perm (e : Event) : ∀ l : List Event, List.Perm (insert_ev e l) (e :: l) := by
  intro l
  induction l with
  | nil => rw [insert_ev]
  | cons x xs ih =>
    rw [insert_ev]
    by_cases h : key_lt x e = true
    · rw [if_pos h]
      exact (ih.cons x).trans (List.Perm.swap e x xs)
    · rw [if_neg h]

theorem sort_events_perm : ∀ l : List Event, List.Perm (sort_events l) l := by
  intro l
  induction l with
  | nil => rfl
  | cons a l ih =>
    have : sort_events (a :: l) = insert_ev a (sort_events l) := rfl
    rw [this]
    exact (insert_ev_perm a (sort_events l)).trans (ih.cons a)

theorem insert_ev_pairwise (e : Event) :
    ∀ l : List Event, l.Pairwise ev_le → (insert_ev e l).Pairwise ev_le := by
  intro l
  induction l with
  | nil => intro _; simp [insert_ev, ev_le]
  | cons x xs ih =>
    intro h
    rcases List.pairwise_cons.mp h with ⟨hx, hxs⟩
    rw [insert_ev]
    by_cases hc : key_lt x e = true
    · rw [if_pos hc]
      refine List.pairwise_cons.mpr ⟨?_, ih hxs⟩
      intro y hy
      rcases List.mem_cons.mp ((insert_ev_perm e xs).mem_iff.mp hy) with rfl | hmem
      · show key_lt y x = false
        exact key_lt_asymm x y hc
      · exact hx y hmem
    · rw [if_neg hc]
      have hce : key_lt x e = false := by
        revert hc
        cases key_lt x e <;> simp
      refine List.pairwise_cons.mpr ⟨?_, h⟩
      intro y hy
      rcases List.mem_cons.mp hy with rfl | hmem
      · exact hce
      · exact key_lt_le_trans x y e hce (hx y hmem)

theorem sort_events_pairwise : ∀ l : List Event, (sort_events l).Pairwise ev_le := by
  intro l
  induction l with
  | nil => simp [sort_events]
  | cons a l ih => exact insert_ev_pairwise a (sort_events l) ih

/-! ## Merge lemmas -/

theorem merge_step_keys_nodup (m : List Event) (e : Event)
    (h : (m.map event_key).Nodup) : ((merge_step m e).map event_key).Nodup := by
  cases hf : m.find? (fun x => decide (event_key x = event_key e)) with
  | none =>
    have hres : merge_step m e = m ++ [e] := by
      unfold merge_step
      rw [hf]
    have hnot : event_key e ∉ m.map event_key := by
      intro hmem
      rcases List.mem_map.mp hmem with ⟨x, hx, hkx⟩
      have hne := List.find?_eq_none.mp hf x hx
      simp at hne
      exact hne hkx
    rw [hres, List.map_append]
    refine List.Nodup.append h (List.nodup_singleton _) ?_
    intro a ha hb
    rw [List.map_singleton, List.mem_singleton] at hb
    subst hb
    exact hnot ha
  | some prev =>
    by_cases hp : status_priority e.status ≥ status_priority prev.status
    · have hres : merge_step m e =
          m.map (fun x => if event_key x = event_key e then e else x) := by
        unfold merge_step
        rw [hf]
        exact if_pos hp
      have hmap : (m.map (fun x => if event_key x = event_key e then e else x)).map
          event_key = m.map event_key := by
        rw [List.map_map]
        apply List.map_congr_left
        intro x _
        by_cases hc : event_key x = event_key e
        · simp [Function.comp, hc]
        · simp [Function.comp, hc]
      rw [hres, hmap]
      exact h
    · have hres : merge_step m e = m := by
        unfold merge_step
        rw [hf]
        exact if_neg hp
      rw [hres]
      exact h

theorem merge_events_keys_nodup (evs : List Event) :
    ((merge_events evs).map event_key).Nodup := by
  have key : ∀ (l m : List Event), (m.map event_key).Nodup →
      ((l.foldl merge_step m).map event_key).Nodup := by
    intro l
    induction l with
    | nil => intro m h; exact h
    | cons a l ih => intro m h; exact ih _ (merge_step_keys_nodup m a h)
  exact key evs [] (by simp)

theorem merge_step_forall (P : Event → Prop) (m : List Event) (e : Event)
    (hm : ∀ x ∈ m, P x) (he : P e) : ∀ x ∈ merge_step m e, P x := by
  cases hf : m.find? (fun x => decide (event_key x = event_key e)) with
  | none =>
    have hres : merge_step m e = m ++ [e] := by
      unfold merge_step
      rw [hf]
    rw [hres]
    intro x hx
    rcases List.mem_append.mp hx with h1 | h2
    · exact hm x h1
    · rw [List.mem_singleton] at h2
      subst h2
      exact he
  | some prev =>
    by_cases hp : status_priority e.status ≥ status_priority prev.status
    · have hres : merge_step m e =
          m.map (fun x => if event_key x = event_key e then e else x) := by
        unfold merge_step
        rw [hf]
        exact if_pos hp
      rw [hres]
      intro x hx
      rcases List.mem_map.mp hx with ⟨y, hy, rfl⟩
      by_cases hc : event_key y = event_key e
      · simp [hc]
        exact he
      · simp [hc]
        exact hm y hy
    · have hres : merge_step m e = m := by
        unfold merge_step
        rw [hf]
        exact if_neg hp
      rw [hres]
      exact hm

theorem merge_events_forall (P : Event → Prop) :
    ∀ (evs m : List Event), (∀ x ∈ evs, P x) → (∀ x ∈ m, P x) →
      ∀ x ∈ evs.foldl merge_step m, P x := by
  intro evs
  induction evs with
  | nil => intro m _ hm; exact hm
  | cons a l ih =>
    intro m hev hm
    exact ih _ (fun x hx => hev x (List.mem_cons_of_mem _ hx))
      (merge_step_forall P m a hm (hev a (List.mem_cons_self _ _)))

theorem merge_events_forall' (P : Event → Prop) (evs : List Event)
    (h : ∀ x ∈ evs, P x) : ∀ x ∈ merge_events evs, P x := by
  unfold merge_events
  exact merge_events_forall P evs [] h (by simp)

/-! ## C5 -/

/-- C5: the dedup fold leaves at most one event per `(platform,
source_id-or-watch_url)` key (also after the final sort); when two events
share a key, the one with the strictly higher merge priority survives in
either order, and the priorities order the statuses live > upcoming >
ended (3 > 2 > 1), so every collision among the three statuses keeps the
higher-priority event — in particular a live/upcoming collision keeps the
live event. -/
theorem C5_dedup_merge :
    (∀ evs : List Event, ((merge_events evs).map event_key).Nodup ∧
      ((sort_events (merge_events evs)).map event_key).Nodup) ∧
    (∀ a b : Event, event_key a = event_key b →
      status_priority b.status < status_priority a.status →
      merge_events [a, b] = [a] ∧ merge_events [b, a] = [a]) ∧
    (status_priority "live" = 3 ∧ status_priority "upcoming" = 2 ∧
      status_priority "ended" = 1) ∧
    (∀ l u : Event, l.status = "live" → u.status = "upcoming" →
      event_key l = event_key u →
      merge_events [l, u] = [l] ∧ merge_events [u, l] = [l]) := by
  have hpair : ∀ a b : Event, event_key a = event_key b →
      status_priority b.status < status_priority a.status →
      merge_events [a, b] = [a] ∧ merge_events [b, a] = [a] := by
    intro a b hk hlt
    have hge : ¬ (status_priority b.status ≥ status_priority a.status) := by
      omega
    have hge2 : status_priority a.status ≥ status_priority b.status := by
      omega
    constructor
    · simp [merge_events, merge_step, hk, hge]
    · simp [merge_events, merge_step, hk.symm, hge2]
  refine ⟨?_, hpair, ⟨by decide, by decide, by decide⟩, ?_⟩
  · intro evs
    refine ⟨merge_events_keys_nodup evs, ?_⟩
    have hp := (sort_events_perm (merge_events evs)).map event_key
    exact hp.nodup_iff.mpr (merge_events_keys_nodup evs)
  · intro l u hl hu hk
    exact hpair l u hk (by rw [hl, hu]; decide)

/-- The C5 witness pair: same key, upcoming vs live. -/
def evC5u : Event :=
  { start_et := "2026-01-01 08:00", end_et := "", title := "", league := "",
    platform := "YouTube", channel := "", watch_url := "u", source_id := "x",
    event_type := "", is_premiere := false, status := "upcoming",
    thumbnail_url := "", subscribers := 10 }

/-- The live member of the C5 witness pair. -/
def evC5l : Event := { evC5u with status := "live" }

/-- The ended member of the C5 witness triple. -/
def evC5e : Event := { evC5u with status := "ended" }

/-- C5 witness at concrete inputs: key uniqueness plus all three
status-collision pairs, in both orders. -/
theorem C5_witness :
    ((merge_events [evC5l, evC5u]).map event_key).Nodup ∧
      (merge_events [evC5l, evC5u] = [evC5l] ∧
        merge_events [evC5u, evC5l] = [evC5l]) ∧
      (merge_events [evC5l, evC5e] = [evC5l] ∧
        merge_events [evC5e, evC5l] = [evC5l]) ∧
      (merge_events [evC5u, evC5e] = [evC5u] ∧
        merge_events [evC5e, evC5u] = [evC5u]) :=
  ⟨(C5_dedup_merge.1 [evC5l, evC5u]).1,
    C5_dedup_merge.2.2.2 evC5l evC5u rfl rfl rfl,
    C5_dedup_merge.2.1 evC5l evC5e rfl (by decide),
    C5_dedup_merge.2.1 evC5u evC5e rfl (by decide)⟩

/-! ## C6 -/

/-- The specification's sort example: a late upcoming event. -/
def evC6a : Event := { evC5u with start_et := "2026-01-02 10:00", source_id := "a" }

/-- The specification's sort example: a live event with a middle start. -/
def evC6b : Event :=
  { evC5u with start_et := "2026-01-01 09:00", status := "live", source_id := "b" }

/-- The specification's sort example: an early upcoming event. -/
def evC6c : Event := { evC5u with start_et := "2026-01-01 08:00", source_id := "c" }

/-- Two events tied on the sort key but with different subscriber counts. -/
def evC6t1 : Event := { evC5u with subscribers := 10, source_id := "t1" }

/-- The higher-subscriber member of the tied pair. -/
def evC6t2 : Event := { evC5u with subscribers := 100, source_id := "t2" }

/-- C6 counterexample: the sort has no subscriber-count tiebreak — two
events with identical sort keys stay in input order even though the
second has more subscribers (the claim says subscriber-descending). -/
theorem C6_counterexample :
    sort_key evC6t1 = sort_key evC6t2 ∧
      evC6t1.subscribers < evC6t2.subscribers ∧
      sort_events [evC6t1, evC6t2] = [evC6t1, evC6t2] :=
  ⟨by decide, by decide, by decide⟩

/-- C6 amended: the final sort is a stable ascending sort by (lifecycle
rank, start string): the output is a permutation of the input, pairwise
ordered by `ev_le` (live first, then upcoming, then the rest; ties by
the `start_et` string ascending), with no subscriber tiebreak; on the
specification's example the live event comes first and the upcoming
events follow in ascending start order. -/
theorem C6_amended :
    (∀ l : List Event, List.Perm (sort_events l) l ∧
      (sort_events l).Pairwise ev_le) ∧
    (sort_events [evC6a, evC6b, evC6c]).map Event.source_id = ["b", "c", "a"] :=
  ⟨fun l => ⟨sort_events_perm l, sort_events_pairwise l⟩, by decide⟩

/-! ## C7 -/

/-- C7 amended: when the schedule sheet yields at least one event, the
YouTube collection/classification path is skipped entirely (whatever its
fetch would have produced — even an error), but the TikTok channels are
still scanned and their live events appended; the output is the deduped,
sorted union of sheet and TikTok events. -/
theorem C7_amended (now : Int) (cfg : Config) (rows : List SheetRow)
    (tik : List TikTokScan) (hyt hoth api : Bool)
    (ytFetch : Except RunErr (List ChannelScan))
    (hne : load_schedule_from_sheet now rows ≠ []) :
    run now cfg (some rows) tik hyt hoth api ytFetch =
      .ok (some (sort_events (merge_events
        (load_schedule_from_sheet now rows ++
          tik.filterMap (tiktok_event now))))) := by
  have hie : (load_schedule_from_sheet now rows).isEmpty = false := by
    cases hl : load_schedule_from_sheet now rows with
    | nil => exact absurd hl hne
    | cons a l => rfl
  unfold run yt_part
  simp [hie]

/-- A schedule-sheet row yielding one upcoming event. -/
def rowC7 : SheetRow :=
  { start_et := "2026-01-01 10:00", end_et := "", title := "Sheet ev",
    league := "", platform := "YouTube", channel := "c",
    watch_url := "https://w", status := "", event_type := "",
    is_premiere := "", thumbnail_url := "", subscribers := "" }

/-- A TikTok channel that the network lookup reports live. -/
def tikC7 : TikTokScan :=
  { display_name := "DN", handle := "h", subs := 3,
    live_url := "https://www.tiktok.com/@h/live", is_live := true,
    room_id := "r1", cover := "" }

/-- C7 counterexample: with a non-empty schedule sheet, per-channel
processing still happens for TikTok — the written output contains a
TikTok event that is not among the sheet events, contradicting "no
per-channel processing occurs and no additional events are appended". -/
theorem C7_counterexample :
    (load_schedule_from_sheet 0 [rowC7]).length = 1 ∧
      platforms (run 0 cfgDefault (some [rowC7]) [tikC7] true false true
        (.error (.http 403))) = .ok (some ["TikTok", "YouTube"]) := by
  constructor
  · decide
  · decide

/-- C7 witness for the amended theorem at a concrete input. -/
theorem C7_witness :
    run 0 cfgDefault (some [rowC7]) [tikC7] true false true
        (.error (.http 403)) =
      .ok (some (sort_events (merge_events
        (load_schedule_from_sheet 0 [rowC7] ++
          [tikC7].filterMap (tiktok_event 0))))) :=
  C7_amended 0 cfgDefault [rowC7] [tikC7] true false true (.error (.http 403))
    (by decide)

/-! ## C8 -/

/-- C8 counterexample: an HTTP 403 raised by the credentialed YouTube
fetch is logged and re-raised — the run fails instead of completing with
exit code 0. -/
theorem C8_counterexample :
    run 0 cfgDefault none [] true false true (.error (.http 403)) =
      .error (.http 403) := by
  decide

/-- C8 amended: only the per-channel live-search call tolerates an
HTTPError (it is caught and treated as zero live-search results); a 403
raised by the other credentialed calls propagates out of `main`, which
logs and re-raises it, failing the run. -/
theorem C8_amended :
    (∀ (m : Int) (c : Nat),
      fetch_search_live_for_channel m (.error (.http c)) = .ok []) ∧
    (∀ (now : Int) (cfg : Config) (tik : List TikTokScan) (hoth : Bool)
      (e : RunErr), run now cfg none tik true hoth true (.error e) = .error e) := by
  constructor
  · intro m c
    unfold fetch_search_live_for_channel
    split
    · rfl
    · rfl
  · intro now cfg tik hoth e
    unfold run yt_part
    simp [load_schedule_from_sheet]

/-! ## C9 -/

/-- The identifier of an emitted event, as the dedup key uses it:
`source_id or watch_url`. -/
def event_identifier (e : Event) : String :=
  if e.source_id != "" then e.source_id else e.watch_url

theorem fmtTimestamp_ne_empty (t : Int) : fmtTimestamp t ≠ "" := by
  unfold fmtTimestamp
  intro h
  have h2 := congrArg String.length h
  simp only [String.length_append] at h2
  have hd : ("-" : String).length = 1 := rfl
  have hsp : (" " : String).length = 1 := rfl
  have hc : (":" : String).length = 1 := rfl
  rw [hd, hsp, hc] at h2
  simp at h2

theorem yt_watch_url_ne_empty (vid : String) : yt_watch_url vid ≠ "" := by
  unfold yt_watch_url
  intro h
  have h2 := congrArg String.length h
  rw [String.length_append] at h2
  have hl : ("https://www.youtube.com/watch?v=" : String).length = 32 := rfl
  rw [hl] at h2
  simp at h2

theorem iso_fmt_ne_empty (ts : TS) (s : String) (h : iso_to_et_fmt ts = some s) :
    s ≠ "" := by
  unfold iso_to_et_fmt at h
  rcases Option.map_eq_some'.mp h with ⟨t, _, hfa⟩
  rw [← hfa]
  exact fmtTimestamp_ne_empty t

theorem event_identifier_ne_empty (e : Event) (hw : e.watch_url ≠ "") :
    event_identifier e ≠ "" := by
  unfold event_identifier
  split
  · next hcond => simpa using hcond
  · exact hw

/-- The well-formedness predicate of C9. -/
def event_ok (e : Event) : Prop := event_identifier e ≠ "" ∧ e.start_et ≠ ""

theorem mk_live_event_ok (ct : String) (subs : Int) (now : Int) (p : Pick)
    (e : Event) (h : mk_live_event ct subs now p = some e) : event_ok e := by
  unfold mk_live_event at h
  cases hf : iso_to_et_fmt (ts_or p.start (TS.time now)) with
  | none => rw [hf] at h; simp at h
  | some s =>
    rw [hf] at h
    simp at h
    constructor
    · rw [← h]
      exact event_identifier_ne_empty _ (yt_watch_url_ne_empty p.vid)
    · rw [← h]
      exact iso_fmt_ne_empty _ _ hf

theorem mk_upcoming_event_ok (ct : String) (subs : Int) (p : Pick)
    (e : Event) (h : mk_upcoming_event ct subs p = some e) : event_ok e := by
  unfold mk_upcoming_event at h
  cases hf : iso_to_et_fmt p.start with
  | none => rw [hf] at h; simp at h
  | some s =>
    rw [hf] at h
    cases hg : (if p.stop.present then iso_to_et_fmt p.stop else some "") with
    | none => rw [hg] at h; simp at h
    | some t =>
      rw [hg] at h
      simp at h
      constructor
      · rw [← h]
        exact event_identifier_ne_empty _ (yt_watch_url_ne_empty p.vid)
      · rw [← h]
        exact iso_fmt_ne_empty _ _ hf

theorem mk_ended_event_ok (ct : String) (subs : Int) (p : Pick)
    (e : Event) (h : mk_ended_event ct subs p = some e) : event_ok e := by
  unfold mk_ended_event at h
  cases hf : iso_to_et_fmt (ts_or p.start p.stop) with
  | none => rw [hf] at h; simp at h
  | some s =>
    rw [hf] at h
    cases hg : (if p.stop.present then iso_to_et_fmt p.stop else some "") with
    | none => rw [hg] at h; simp at h
    | some t =>
      rw [hg] at h
      simp at h
      constructor
      · rw [← h]
        exact event_identifier_ne_empty _ (yt_watch_url_ne_empty p.vid)
      · rw [← h]
        exact iso_fmt_ne_empty _ _ hf

theorem emit_ended_ok (ct : String) (subs : Int) :
    ∀ (ps : List Pick) (l : List Event), emit_ended ct subs ps = some l →
      ∀ e ∈ l, event_ok e := by
  intro ps
  induction ps with
  | nil => intro l h e he; simp [emit_ended] at h; subst h; simp at he
  | cons p ps ih =>
    intro l h e he
    unfold emit_ended at h
    cases hm : mk_ended_event ct subs p with
    | none => rw [hm] at h; simp at h
    | some e0 =>
      rw [hm] at h
      cases hr : emit_ended ct subs ps with
      | none => rw [hr] at h; simp at h
      | some l0 =>
        rw [hr] at h
        simp at h
        subst h
        rcases List.mem_cons.mp he with h1 | h2
        · subst h1
          exact mk_ended_event_ok ct subs p e hm
        · exact ih l0 hr e h2

theorem channel_events_ok (now : Int) (cfg : Config) (sc : ChannelScan)
    (evs : List Event) (h : channel_events now cfg sc = some evs) :
    ∀ e ∈ evs, event_ok e := by
  simp only [channel_events] at h
  cases hl : (scan_items now cfg sc.items ⟨none, none, []⟩).live? with
  | some p =>
    rw [hl] at h
    simp only [] at h
    cases hm : mk_live_event sc.channel_title sc.subscribers now p with
    | none => rw [hm] at h; simp at h
    | some e0 =>
      rw [hm] at h
      simp at h
      intro e he
      rw [← h] at he
      rcases List.mem_singleton.mp he with rfl
      exact mk_live_event_ok _ _ _ _ _ hm
  | none =>
    rw [hl] at h
    cases hu : (scan_items now cfg sc.items ⟨none, none, []⟩).upcoming? with
    | none =>
      rw [hu] at h
      cases hr : emit_ended sc.channel_title sc.subscribers
          (scan_items now cfg sc.items ⟨none, none, []⟩).ended with
      | none => rw [hr] at h; simp at h
      | some l0 =>
        rw [hr] at h
        simp at h
        intro e he
        rw [← h] at he
        exact emit_ended_ok _ _ _ _ hr e he
    | some p =>
      rw [hu] at h
      simp only [] at h
      cases hm : mk_upcoming_event sc.channel_title sc.subscribers p with
      | none => rw [hm] at h; simp at h
      | some e0 =>
        rw [hm] at h
        cases hr : emit_ended sc.channel_title sc.subscribers
            (scan_items now cfg sc.items ⟨none, none, []⟩).ended with
        | none => rw [hr] at h; simp at h
        | some l0 =>
          rw [hr] at h
          simp at h
          intro e he
          rw [← h] at he
          rcases List.mem_cons.mp he with rfl | hml
          · exact mk_upcoming_event_ok _ _ _ _ hm
          · exact emit_ended_ok _ _ _ _ hr e hml

theorem emit_channels_ok (now : Int) (cfg : Config) :
    ∀ (scans : List ChannelScan) (l : List Event),
      emit_channels now cfg scans = some l → ∀ e ∈ l, event_ok e := by
  intro scans
  induction scans with
  | nil => intro l h e he; simp [emit_channels] at h; subst h; simp at he
  | cons sc rest ih =>
    intro l h e he
    unfold emit_channels at h
    cases hc : channel_events now cfg sc with
    | none => rw [hc] at h; simp at h
    | some evs =>
      rw [hc] at h
      rcases Option.map_eq_some'.mp h with ⟨l0, hl0, hl⟩
      rw [← hl] at he
      rcases List.mem_append.mp he with h1 | h2
      · exact channel_events_ok now cfg sc evs hc e h1
      · exact ih l0 hl0 e h2

theorem yt_part_ok (now : Int) (cfg : Config) (u a hy : Bool)
    (ytF : Except RunErr (List ChannelScan)) (l : List Event)
    (h : yt_part now cfg u a hy ytF = .ok l) : ∀ e ∈ l, event_ok e := by
  unfold yt_part at h
  split at h
  · simp at h; subst h; simp
  · split at h
    · simp at h; subst h; simp
    · split at h
      · simp at h; subst h; simp
      · cases ytF with
        | error e2 => simp at h
        | ok scans =>
          simp only [] at h
          cases hc : emit_channels now cfg scans with
          | none => rw [hc] at h; simp at h
          | some l0 =>
            rw [hc] at h
            simp at h
            subst h
            exact emit_channels_ok now cfg scans l0 hc

theorem sheet_event_ok (now : Int) (r : SheetRow) (e : Event)
    (h : sheetRowToEvent now r = some e) : event_ok e := by
  unfold sheetRowToEvent at h
  split at h
  · simp at h
  · next hw =>
    split at h
    · simp at h
      obtain ⟨hs1, hs2⟩ := h
      constructor
      · rw [← hs2]
        exact event_identifier_ne_empty _ hw
      · rw [← hs2]
        exact hs1
    · simp at h
      obtain ⟨⟨hlive, _⟩, hs2⟩ := h
      constructor
      · rw [← hs2]
        exact event_identifier_ne_empty _ hw
      · rw [← hs2]
        show (if str_lower (str_trim r.status) = "live" then now_et_fmt now
          else "") ≠ ""
        rw [if_pos hlive]
        exact fmtTimestamp_ne_empty now

theorem tiktok_event_ok (now : Int) (c : TikTokScan) (e : Event)
    (h : tiktok_event now c = some e) : event_ok e := by
  unfold tiktok_event at h
  split at h
  · simp at h
  · next hu =>
    split at h
    · simp at h
    · simp at h
      constructor
      · rw [← h]
        exact event_identifier_ne_empty _ hu
      · rw [← h]
        exact fmtTimestamp_ne_empty now

/-- C9: every event in a written output has a non-empty identifier
(`source_id or watch_url`) and a non-empty start timestamp, on every run
and across all three collection paths. -/
theorem C9_output_invariant (now : Int) (cfg : Config)
    (sched : Option (List SheetRow)) (tik : List TikTokScan)
    (hyt hoth api : Bool) (ytF : Except RunErr (List ChannelScan))
    (evs : List Event)
    (h : run now cfg sched tik hyt hoth api ytF = .ok (some evs)) :
    ∀ e ∈ evs, event_identifier e ≠ "" ∧ e.start_et ≠ "" := by
  simp only [run] at h
  split at h
  · simp at h
  · cases hy : yt_part now cfg
        (!(load_schedule_from_sheet now (sched.getD [])).isEmpty) api hyt ytF with
    | error e2 => rw [hy] at h; simp at h
    | ok ytEvents =>
      rw [hy] at h
      simp at h
      intro e he
      rw [← h] at he
      have hmem : e ∈ merge_events
          (load_schedule_from_sheet now (sched.getD []) ++
            (tik.filterMap (tiktok_event now) ++ ytEvents)) :=
        (sort_events_perm _).mem_iff.mp he
      refine merge_events_forall' event_ok _ ?_ e hmem
      intro x hx
      rcases List.mem_append.mp hx with hxs | hx1
      · rcases List.mem_filterMap.mp hxs with ⟨r, _, hr⟩
        exact sheet_event_ok now r x hr
      · rcases List.mem_append.mp hx1 with hxt | hxy
        · rcases List.mem_filterMap.mp hxt with ⟨c, _, hc⟩
          exact tiktok_event_ok now c x hc
        · exact yt_part_ok now cfg _ api hyt ytF ytEvents hy x hxy

/-- The TikTok event of the C9 witness run. -/
def evC9a : Event :=
  { start_et := "1970-01-01 00:00", end_et := "",
    title := "DN is live on TikTok", league := "", platform := "TikTok",
    channel := "DN", watch_url := "https://www.tiktok.com/@h/live",
    source_id := "r1", event_type := "", is_premiere := false,
    status := "live", thumbnail_url := "", subscribers := 3 }

/-- The sheet event of the C9 witness run. -/
def evC9b : Event :=
  { start_et := "2026-01-01 10:00", end_et := "", title := "Sheet ev",
    league := "", platform := "YouTube", channel := "c",
    watch_url := "https://w", source_id := "", event_type := "",
    is_premiere := false, status := "upcoming", thumbnail_url := "",
    subscribers := 0 }

/-- C9 witness at a concrete run. -/
theorem C9_witness :
    (event_identifier evC9a ≠ "" ∧ evC9a.start_et ≠ "") ∧
      (event_identifier evC9b ≠ "" ∧ evC9b.start_et ≠ "") :=
  ⟨C9_output_invariant 0 cfgDefault (some [rowC7]) [tikC7] true false true
      (.error (.http 403)) [evC9a, evC9b] (by decide) evC9a (by decide),
    C9_output_invariant 0 cfgDefault (some [rowC7]) [tikC7] true false true
      (.error (.http 403)) [evC9a, evC9b] (by decide) evC9b (by decide)⟩

/-- C6 witness for the amended theorem at a concrete input. -/
theorem C6_witness :
    List.Perm (sort_events [evC6t1]) [evC6t1] ∧
      (sort_events [evC6t1]).Pairwise ev_le :=
  C6_amended.1 [evC6t1]

/-- C8 witness for the amended theorem at concrete inputs. -/
theorem C8_witness :
    fetch_search_live_for_channel 5 (.error (.http 403)) = .ok [] ∧
      run 0 cfgDefault none [tikC7] true false true (.error .value) =
        .error .value :=
  ⟨C8_amended.1 5 403, C8_amended.2 0 cfgDefault [tikC7] false .value⟩
